import Mathlib

/-!
Verification development for the Knowledge_parser repository
(`config.py`, `utils.py`, `parse_google_doc.py`, `parse_google_sheet.py`).

Texts are modelled as `List Char` (Python `str` is a sequence of code
points, which `List Char` matches exactly).  Every Python `re.sub` call is
translated into an explicit left-to-right scanner that mirrors the
backtracking behaviour of the concrete pattern; each matcher's doc comment
names the pattern it embeds and records the (de)sugaring of greedy/lazy
repetition that the pattern admits.
-/

namespace KP

/-- Python regex `\s` (and `str.strip` / `str.isspace`) on the characters
this code base manipulates: ASCII whitespace plus the no-break space
`\xa0` that `clean_formatting_artifacts` treats specially.  (The exotic
Unicode space code points above U+00A0 never appear in the repository's
patterns or data and are not modelled.) -/
def pySpace (c : Char) : Bool :=
  c = ' ' || c = '\t' || c = '\n' || c = '\r' || c = '\x0b' || c = '\x0c' || c = '\xa0'

/-- Match a literal list of characters at the head of `s`; returns the rest. -/
def matchLit : List Char → List Char → Option (List Char)
  | [], s => some s
  | _ :: _, [] => none
  | a :: ls, b :: bs => if a = b then matchLit ls bs else none

/-- One pass of `re.sub(pattern, repl, text)`: the matcher `m` reports, for a
match starting exactly at the head of the scanned suffix, the replacement
text and the number of characters the match consumes (every matcher below
consumes at least one).  On failure the scan advances one character, as the
regex engine does.  Fuelled by the length of the scanned text, which always
suffices because every step consumes at least one character. -/
def reSubGo (m : List Char → Option (List Char × Nat)) : Nat → List Char → List Char
  | 0, s => s
  | _ + 1, [] => []
  | fuel + 1, c :: cs =>
    match m (c :: cs) with
    | some (repl, k) => repl ++ reSubGo m fuel (List.drop k (c :: cs))
    | none => c :: reSubGo m fuel cs

def reSub (m : List Char → Option (List Char × Nat)) (s : List Char) : List Char :=
  reSubGo m s.length s

def lbrace : Char := '\x7b'

def rbrace : Char := '\x7d'

/-- The replacement template `r'{{{\1}}}'` of `standardize_placeholders`. -/
def tripleBrace (g : List Char) : List Char :=
  [lbrace, lbrace, lbrace] ++ g ++ [rbrace, rbrace, rbrace]

/-- Matcher for `__([^_]+)__` (first substitution of
`utils.standardize_placeholders`).  The greedy class `[^_]+` is a maximal
run of non-underscore characters; shortening it by backtracking would ask
`__` to start on a non-underscore character, so the match succeeds exactly
when the maximal run is non-empty and immediately followed by `__`. -/
def mSub1 : List Char → Option (List Char × Nat)
  | '_' :: '_' :: rest =>
    if (rest.takeWhile (fun c => c ≠ '_')).isEmpty then none
    else
      match rest.drop (rest.takeWhile (fun c => c ≠ '_')).length with
      | '_' :: '_' :: _ =>
        some (tripleBrace (rest.takeWhile (fun c => c ≠ '_')),
              (rest.takeWhile (fun c => c ≠ '_')).length + 4)
      | _ => none
  | _ => none

/-- Lazy scan for `(.*?)___` (no DOTALL, so `.` excludes the newline): stop
at the first position where the literal `___` matches; returns the length
of the lazily matched group. -/
def findTriUnd : Nat → List Char → Option Nat
  | 0, _ => none
  | _ + 1, '_' :: '_' :: '_' :: _ => some 0
  | fuel + 1, c :: cs => if c = '\n' then none else (findTriUnd fuel cs).map (· + 1)
  | _ + 1, [] => none

/-- Matcher for `___(.*?)___` (second substitution of
`utils.standardize_placeholders`). -/
def mSub2 : List Char → Option (List Char × Nat)
  | '_' :: '_' :: '_' :: rest =>
    match findTriUnd rest.length rest with
    | some g => some (tripleBrace (rest.take g), 3 + g + 3)
    | none => none
  | _ => none

/-- Matcher for `\[ВСТАВКА:\s*([^\]]+)\]` (third substitution of
`utils.standardize_placeholders`).  With `w` the maximal whitespace run
after the colon and `j` the offset of the first `]`, the greedy `\s*`
backtracks just enough to leave `[^\]]+` non-empty, so the captured group
is the segment from `min w (j-1)` to `j`; the match fails when no `]`
follows or when it follows immediately. -/
def mSub3 : List Char → Option (List Char × Nat)
  | '[' :: rest =>
    match matchLit "ВСТАВКА:".data rest with
    | none => none
    | some s =>
      let w := (s.takeWhile pySpace).length
      let j := (s.takeWhile (fun c => c ≠ ']')).length
      if j < s.length ∧ 1 ≤ j then
        some (tripleBrace ((s.take j).drop (min w (j - 1))), 1 + 8 + j + 1)
      else none
  | _ => none

/-- `utils.standardize_placeholders`: the three substitutions run once
each, in the order of the source, each over the result of the previous. -/
def standardize_placeholders (s : List Char) : List Char :=
  reSub mSub3 (reSub mSub2 (reSub mSub1 s))

/-- Matcher for a literal followed by `\s*` (the `Конфиденциально\s*`
metadata pattern): greedy, nothing follows, so the whitespace run is
maximal. -/
def mLitWs (lit : List Char) (s : List Char) : Option (List Char × Nat) :=
  match matchLit lit s with
  | none => none
  | some rest => some ([], lit.length + (rest.takeWhile pySpace).length)

/-- Matcher for a literal followed by `.*` without DOTALL (the
`Автор:.*`-style metadata patterns): the match extends to the end of the
line, exclusive of the newline. -/
def mLitLine (lit : List Char) (s : List Char) : Option (List Char × Nat) :=
  match matchLit lit s with
  | none => none
  | some rest => some ([], lit.length + (rest.takeWhile (fun c => c ≠ '\n')).length)

/-- `utils.clean_metadata` with the default `config.METADATA_PATTERNS`:
five `re.sub(p, '', text, flags=re.MULTILINE)` passes in list order (none
of the patterns uses `^` or `$`, so MULTILINE is inert). -/
def clean_metadata (s : List Char) : List Char :=
  let s := reSub (mLitWs "Конфиденциально".data) s
  let s := reSub (mLitLine "Автор:".data) s
  let s := reSub (mLitLine "Для кого предназначено:".data) s
  let s := reSub (mLitLine "Дата издания:".data) s
  reSub (mLitLine "Версия:".data) s

/-- `\s*\n\S` with the existential semantics of a lookahead body: some
whitespace run, then a newline, then one non-whitespace character. -/
def hasNlThenNonWs : List Char → Bool
  | [] => false
  | c :: rest =>
    (c = '\n' && (match rest with | d :: _ => !pySpace d | [] => false))
    || (pySpace c && hasNlThenNonWs rest)

/-- The lookahead `(?=\n\s*\n\S|\Z)` of `config.TERMS_SECTION_PATTERN`:
either a blank-line boundary followed by a non-space character, or the end
of the string. -/
def lookTermsStop : List Char → Bool
  | [] => true
  | '\n' :: rest => hasNlThenNonWs rest
  | _ => false

/-- Lazy repetition before a lookahead: the number of characters consumed
until the first suffix where `stop` holds. -/
def lazyUntil (stop : List Char → Bool) : Nat → List Char → Option Nat
  | 0, _ => none
  | fuel + 1, s =>
    if stop s then some 0
    else
      match s with
      | [] => none
      | _ :: rest => (lazyUntil stop fuel rest).map (· + 1)

/-- Matcher for `Термины:[\s\S]*?(?=\n\s*\n\S|\Z)`
(`utils.remove_terms_section`).  `[\s\S]*?` is a lazy any-character run;
`\Z` holds at the end of the string, so once the literal matches the lazy
run always finds a stop. -/
def mTerms (s : List Char) : Option (List Char × Nat) :=
  match matchLit "Термины:".data s with
  | none => none
  | some rest =>
    match lazyUntil lookTermsStop (rest.length + 1) rest with
    | some k => some ([], 8 + k)
    | none => none

def remove_terms_section (s : List Char) : List Char := reSub mTerms s

/-- `\s*\n` with the existential semantics of a lookahead body. -/
def hasNlAfterWs : List Char → Bool
  | [] => false
  | c :: rest => c = '\n' || (pySpace c && hasNlAfterWs rest)

/-- The lookahead `(?=\n\s*\n)` of `config.TECHNICAL_INTRO_PATTERNS`. -/
def lookTech : List Char → Bool
  | '\n' :: rest => hasNlAfterWs rest
  | _ => false

/-- Matcher for `LIT.*?(?=\n\s*\n)` under `re.MULTILINE | re.DOTALL`
(`utils.clean_technical_intros`): `.` also matches newlines, and there is
no `\Z` alternative, so if no blank-line boundary follows the literal the
match fails and the scan moves on. -/
def mTech (lit : List Char) (s : List Char) : Option (List Char × Nat) :=
  match matchLit lit s with
  | none => none
  | some rest =>
    match lazyUntil lookTech (rest.length + 1) rest with
    | some k => some ([], lit.length + k)
    | none => none

def clean_technical_intros (s : List Char) : List Char :=
  reSub (mTech "Задача:".data) (reSub (mTech "Причина создания:".data) s)

/-- Code-point interval test for character classes. -/
def inRange (lo hi c : Char) : Bool := lo ≤ c && c ≤ hi

/-- Lower-casing as `re.IGNORECASE` needs it here: ASCII letters and the
Cyrillic letters appearing in `config.CRM_REFERENCE_PATTERNS`. -/
def pyLower (c : Char) : Char :=
  if inRange 'A' 'Z' c then Char.ofNat (c.toNat + 32)
  else if inRange 'А' 'Я' c then Char.ofNat (c.toNat + 32)
  else if c = 'Ё' then 'ё'
  else c

/-- Case-insensitive literal match (`re.IGNORECASE`). -/
def matchLitCI : List Char → List Char → Option (List Char)
  | [], s => some s
  | _ :: _, [] => none
  | a :: ls, b :: bs => if pyLower a = pyLower b then matchLitCI ls bs else none

/-- The class `[а-я]` under `re.IGNORECASE`. -/
def ruClass (c : Char) : Bool := inRange 'а' 'я' (pyLower c)

/-- Matcher for `Б24|B24|Битрикс24` (first CRM pattern): alternatives
tried in source order; none is a prefix of another at a given position. -/
def mCrm1 (s : List Char) : Option (List Char × Nat) :=
  match matchLitCI "Б24".data s with
  | some _ => some ([], 3)
  | none =>
    match matchLitCI "B24".data s with
    | some _ => some ([], 3)
    | none =>
      match matchLitCI "Битрикс24".data s with
      | some _ => some ([], 9)
      | none => none

/-- Matcher for `карточк[а-я]+ сделки`: the greedy class run is maximal
(it cannot end on a space, so backtracking cannot shorten it). -/
def mCrm2 (s : List Char) : Option (List Char × Nat) :=
  match matchLitCI "карточк".data s with
  | none => none
  | some rest =>
    let run := rest.takeWhile ruClass
    if run.isEmpty then none
    else
      match matchLitCI " сделки".data (rest.drop run.length) with
      | some _ => some ([], 7 + run.length + 7)
      | none => none

/-- Matcher for `этап[а-я]* \"[^\"]+\"` (a quoted stage name): maximal
class run, a space, a quote, a non-empty run up to the closing quote. -/
def mCrm3 (s : List Char) : Option (List Char × Nat) :=
  match matchLitCI "этап".data s with
  | none => none
  | some rest =>
    let run := rest.takeWhile ruClass
    match rest.drop run.length with
    | ' ' :: '"' :: t =>
      let body := t.takeWhile (fun c => c ≠ '"')
      if body.isEmpty ∨ body.length = t.length then none
      else some ([], 4 + run.length + 2 + body.length + 1)
    | _ => none

/-- Matcher for `сделк[а-я]+ в этап`. -/
def mCrm4 (s : List Char) : Option (List Char × Nat) :=
  match matchLitCI "сделк".data s with
  | none => none
  | some rest =>
    let run := rest.takeWhile ruClass
    if run.isEmpty then none
    else
      match matchLitCI " в этап".data (rest.drop run.length) with
      | some _ => some ([], 5 + run.length + 7)
      | none => none

/-- `utils.clean_crm_references`: four `re.sub(p, '', text,
flags=re.MULTILINE | re.IGNORECASE)` passes in list order. -/
def clean_crm_references (s : List Char) : List Char :=
  reSub mCrm4 (reSub mCrm3 (reSub mCrm2 (reSub mCrm1 s)))

/-- The class `[^\s)]` of the first link pattern. -/
def isUrlChar (c : Char) : Bool := !pySpace c && c ≠ ')'

/-- Matcher for
`https?://(?:www\.)?(?:docs\.google\.com|t\.me|bit\.ly|goo\.gl)[^\s)]+`
(first of `config.LINK_PATTERNS`).  The optional `s` and `www.` are forced
by the literals that follow them (`://` cannot start with `s`, and no
domain alternative starts with `w`), and the four domain alternatives are
mutually exclusive at a given position, so the scan is deterministic. -/
def mLink1 (s : List Char) : Option (List Char × Nat) :=
  match matchLit "http".data s with
  | none => none
  | some r0 =>
    let sl : Nat × List Char := match r0 with
      | 's' :: t => (1, t)
      | _ => (0, r0)
    match matchLit "://".data sl.2 with
    | none => none
    | some r2 =>
      let wl : Nat × List Char := match matchLit "www.".data r2 with
        | some t => (4, t)
        | none => (0, r2)
      let dom : Option Nat :=
        match matchLit "docs.google.com".data wl.2 with
        | some _ => some 15
        | none =>
          match matchLit "t.me".data wl.2 with
          | some _ => some 4
          | none =>
            match matchLit "bit.ly".data wl.2 with
            | some _ => some 6
            | none =>
              match matchLit "goo.gl".data wl.2 with
              | some _ => some 6
              | none => none
      match dom with
      | none => none
      | some d =>
        let run := (wl.2.drop d).takeWhile isUrlChar
        if run.isEmpty then none
        else some ([], 4 + sl.1 + 3 + wl.1 + d + run.length)

/-- `\w` as `\bhttps?://\S+` needs it: ASCII alphanumerics, underscore and
the Cyrillic letters this repository's texts contain. -/
def isWordChar (c : Char) : Bool :=
  inRange 'a' 'z' c || inRange 'A' 'Z' c || inRange '0' '9' c || c = '_'
  || inRange 'А' 'я' c || c = 'Ё' || c = 'ё'

/-- Matcher for `\bhttps?://\S+` (second link pattern): the word boundary
before the word character `h` holds iff the preceding character of the
original text is absent or not a word character. -/
def mLink2 (prev : Option Char) (s : List Char) : Option (List Char × Nat) :=
  let boundary := match prev with
    | none => true
    | some p => !isWordChar p
  if !boundary then none
  else
    match matchLit "http".data s with
    | none => none
    | some r0 =>
      let sl : Nat × List Char := match r0 with
        | 's' :: t => (1, t)
        | _ => (0, r0)
      match matchLit "://".data sl.2 with
      | none => none
      | some r2 =>
        let run := r2.takeWhile (fun c => !pySpace c)
        if run.isEmpty then none else some ([], 4 + sl.1 + 3 + run.length)

/-- `re.sub` scan for a matcher that inspects the preceding character of
the original text (word boundaries are computed on the input string, not
on the replacement). -/
def reSubBGo (m : Option Char → List Char → Option (List Char × Nat)) :
    Nat → Option Char → List Char → List Char
  | 0, _, s => s
  | _ + 1, _, [] => []
  | fuel + 1, prev, c :: cs =>
    match m prev (c :: cs) with
    | some (repl, k) =>
      repl ++ reSubBGo m fuel (List.take k (c :: cs)).getLast? (List.drop k (c :: cs))
    | none => c :: reSubBGo m fuel (some c) cs

def reSubB (m : Option Char → List Char → Option (List Char × Nat)) (s : List Char) :
    List Char :=
  reSubBGo m s.length none s

/-- `utils.clean_links`: the two `config.LINK_PATTERNS` passes in order. -/
def clean_links (s : List Char) : List Char :=
  reSubB mLink2 (reSub mLink1 s)

/-- Matcher for `\[LIT[^\]]+\]` (`plus = true`) or `\[LIT[^\]]*\]`
(`plus = false`): the class excludes `]`, so the run is maximal and must
be followed by the closing bracket. -/
def mBracketLit (lit : List Char) (plus : Bool) (s : List Char) : Option (List Char × Nat) :=
  match matchLit lit s with
  | none => none
  | some rest =>
    let body := rest.takeWhile (fun c => c ≠ ']')
    if body.length = rest.length then none
    else if plus && body.isEmpty then none
    else some ([], lit.length + body.length + 1)

/-- Matcher for `Смотреть таблицу.*` under `re.DOTALL` (`utils.
clean_internal_instructions` passes `re.MULTILINE | re.DOTALL`): `.` also
matches newlines, so the greedy `.*` swallows everything to the end of the
string. -/
def mSmotret (s : List Char) : Option (List Char × Nat) :=
  match matchLit "Смотреть таблицу".data s with
  | none => none
  | some rest => some ([], 16 + rest.length)

/-- Matcher for `ВНИМАНИЕ!.*?(?=\n)` under DOTALL: lazy up to the first
newline; fails when no newline follows. -/
def mVnimanie (s : List Char) : Option (List Char × Nat) :=
  match matchLit "ВНИМАНИЕ!".data s with
  | none => none
  | some rest =>
    let k := (rest.takeWhile (fun c => c ≠ '\n')).length
    if k = rest.length then none else some ([], 9 + k)

/-- `utils.clean_internal_instructions`: the five
`config.INTERNAL_INSTRUCTION_PATTERNS` passes in list order. -/
def clean_internal_instructions (s : List Char) : List Char :=
  let s := reSub (mBracketLit "[см. ".data true) s
  let s := reSub (mBracketLit "[Пояснение для ".data true) s
  let s := reSub (mBracketLit "[ДЕЙСТВИЯ В Б24".data false) s
  let s := reSub mSmotret s
  reSub mVnimanie s

/-- Matcher for `\n{3,}` (replaced by `\n\n`): a maximal newline run of
length at least three. -/
def mNl3 : List Char → Option (List Char × Nat)
  | '\n' :: rest =>
    let run := rest.takeWhile (fun c => c = '\n')
    if 2 ≤ run.length then some (['\n', '\n'], run.length + 1) else none
  | _ => none

/-- Matcher for ` {2,}` (replaced by a single space): a maximal run of at
least two literal spaces. -/
def mSp2 : List Char → Option (List Char × Nat)
  | ' ' :: rest =>
    let run := rest.takeWhile (fun c => c = ' ')
    if 1 ≤ run.length then some ([' '], run.length + 1) else none
  | _ => none

/-- `utils.clean_formatting_artifacts`, steps in source order.  Without
MULTILINE, `^\s+` anchors at the start of the string only, and `\s+$`
(with `$` matching at the end or before a final newline, and the
repetition greedy and leftmost) removes exactly the maximal trailing
whitespace run.  The `\xa0` replacement runs last, after the space
collapsing. -/
def clean_formatting_artifacts (s : List Char) : List Char :=
  let s := reSub mNl3 s
  let s := s.dropWhile pySpace
  let s := (s.reverse.dropWhile pySpace).reverse
  let s := reSub mSp2 s
  s.map (fun c => if c = '\xa0' then ' ' else c)

/-- `config.EMPTY_TABLE_THRESHOLD`. -/
def EMPTY_TABLE_THRESHOLD : Nat := 70

/-- `len(re.findall(r'\|[^|]+\|', table_text))`: non-overlapping
left-to-right scan; at a `|`, the maximal pipe-free run after it must be
non-empty and followed by another `|`, which is then consumed. -/
def countCellsGo : Nat → List Char → Nat
  | 0, _ => 0
  | _ + 1, [] => 0
  | fuel + 1, c :: cs =>
    if c = '|' then
      let run := cs.takeWhile (fun x => x ≠ '|')
      if run.isEmpty then countCellsGo fuel cs
      else
        match cs.drop run.length with
        | '|' :: rest => 1 + countCellsGo fuel rest
        | _ => countCellsGo fuel cs
    else countCellsGo fuel cs

def total_cells (s : List Char) : Nat := countCellsGo s.length s

/-- `len(re.findall(r'\|\s*\|', table_text))`: as above with a possibly
empty whitespace run (`\s` includes the newline, so a `|` ending one row
and the `|` opening the next also pair up). -/
def countEmptyGo : Nat → List Char → Nat
  | 0, _ => 0
  | _ + 1, [] => 0
  | fuel + 1, c :: cs =>
    if c = '|' then
      let run := cs.takeWhile pySpace
      match cs.drop run.length with
      | '|' :: rest => 1 + countEmptyGo fuel rest
      | _ => countEmptyGo fuel cs
    else countEmptyGo fuel cs

def empty_cells (s : List Char) : Nat := countEmptyGo s.length s

/-- The inner `is_empty_table` of `utils.clean_empty_tables`.  The Python
comparison `(empty_cells / total_cells) * 100 > EMPTY_TABLE_THRESHOLD` is
computed on floats; for the cell counts any actual table can produce the
float comparison agrees with the exact rational one (an integer ratio is
at least `1/(10 * total)` away from `7/10` when it differs from it, far
above the rounding error), so it is modelled by the exact comparison
`100 * empty > 70 * total`. -/
def is_empty_table (s : List Char) : Bool :=
  let total := total_cells s
  let empty := empty_cells s
  if total = 0 then true
  else decide (100 * empty > EMPTY_TABLE_THRESHOLD * total)

/-- A line matching `\|[^\n]+\|` exactly: starts and ends with `|` with at
least one character in between (greedy `[^\n]+` backtracks to the last
`|` of the line, which must be its final character for the following `\n`
to match). -/
def lineIsRow (line : List Char) : Bool :=
  line.head? = some '|' && line.getLast? = some '|' && 3 ≤ line.length

/-- Greedy `(?:\|[^\n]+\|\n)+`: the number of characters covered by the
maximal run of newline-terminated row lines (`0` when the first candidate
fails). -/
def dataRowsLen : Nat → List Char → Nat
  | 0, _ => 0
  | fuel + 1, s =>
    let line := s.takeWhile (fun c => c ≠ '\n')
    if lineIsRow line && line.length < s.length then
      line.length + 1 + dataRowsLen fuel (s.drop (line.length + 1))
    else 0

/-- `[\s-]`, the separator-row class (note that `\s` includes `\n`). -/
def sepChar (c : Char) : Bool := pySpace c || c = '-'

/-- Matcher for the table pattern
`\n\|[^\n]+\|\n\|[\s-]+\|\n(?:\|[^\n]+\|\n)+` of
`utils.clean_empty_tables`.  In `\|[\s-]+\|\n` the class excludes `|`, so
the run after the opening `|` is maximal and must be followed directly by
`|\n`: the separator row must consist of exactly two pipes.  The
replacement is `''` when `is_empty_table` holds on the matched block and
the block itself otherwise. -/
def mTable (s0 : List Char) : Option (List Char × Nat) :=
  match s0 with
  | '\n' :: rest =>
    let h := rest.takeWhile (fun c => c ≠ '\n')
    if lineIsRow h && h.length < rest.length then
      match rest.drop (h.length + 1) with
      | '|' :: s2 =>
        let run := s2.takeWhile sepChar
        if run.isEmpty then none
        else
          match s2.drop run.length with
          | '|' :: '\n' :: s3 =>
            let d := dataRowsLen s3.length s3
            if d = 0 then none
            else
              let len := 1 + h.length + 1 + 1 + run.length + 2 + d
              let block := s0.take len
              some (if is_empty_table block then [] else block, len)
          | _ => none
      | _ => none
    else none
  | _ => none

def clean_empty_tables (s : List Char) : List Char := reSub mTable s

/-- The dispatch `cleaning_functions[func_name]` of `utils.apply_cleaning`;
a name outside the dict is skipped (`if func_name in cleaning_functions`). -/
def run_cleaning_step (name : String) (t : List Char) : List Char :=
  if name = "metadata" then clean_metadata t
  else if name = "terms" then remove_terms_section t
  else if name = "technical_intro" then clean_technical_intros t
  else if name = "links" then clean_links t
  else if name = "crm_references" then clean_crm_references t
  else if name = "internal_instructions" then clean_internal_instructions t
  else if name = "empty_tables" then clean_empty_tables t
  else t

/-- `config.CLEANING_LEVELS` together with the lookup
`CLEANING_LEVELS.get(cleaning_level, CLEANING_LEVELS["medium"])` of
`utils.apply_cleaning`: an unrecognized level falls back to medium. -/
def CLEANING_LEVELS (level : String) : List String :=
  if level = "low" then ["metadata", "terms"]
  else if level = "medium" then ["metadata", "terms", "technical_intro", "links"]
  else if level = "high" then
    ["metadata", "terms", "technical_intro", "links", "crm_references",
     "internal_instructions", "empty_tables"]
  else ["metadata", "terms", "technical_intro", "links"]

/-- `utils.apply_cleaning`: the level's cleaning functions in order, then
always `standardize_placeholders` and `clean_formatting_artifacts`. -/
def apply_cleaning (text : List Char) (cleaning_level : String) : List Char :=
  clean_formatting_artifacts (standardize_placeholders
    ((CLEANING_LEVELS cleaning_level).foldl (fun t name => run_cleaning_step name t) text))

/-- A paragraph element of the Docs JSON: the converter only looks at
`textRun.content` (absent `content` defaults to `''`); any other element
kind contributes nothing. -/
inductive ParagraphElement where
  | textRun (content : String)
  | other
deriving DecidableEq

/-- A paragraph: `paragraphStyle.namedStyleType` (absent when the style
dict or the key is missing) and the element list. -/
structure Paragraph where
  namedStyleType : Option String
  elements : List ParagraphElement
deriving DecidableEq

/-- `parse_google_doc.process_paragraph`: concatenate the `textRun`
contents in order. -/
def process_paragraph (p : Paragraph) : String :=
  p.elements.foldl
    (fun text e =>
      match e with
      | ParagraphElement.textRun content => text ++ content
      | ParagraphElement.other => text)
    ""

/-- An item of a table cell's `content` list: only `paragraph` items
contribute to the cell text. -/
inductive CellItem where
  | par (p : Paragraph)
  | other
deriving DecidableEq

structure TableCell where
  content : List CellItem
deriving DecidableEq

structure TableRow where
  tableCells : List TableCell
deriving DecidableEq

structure GTable where
  tableRows : List TableRow
deriving DecidableEq

/-- Python `str.strip()` (same whitespace set as `pySpace`). -/
def pyStrip (s : String) : String :=
  String.mk ((s.data.dropWhile pySpace).reverse.dropWhile pySpace).reverse

/-- The cell body of `process_table`: concatenated paragraph texts,
then `.strip()`. -/
def cellText (cell : TableCell) : String :=
  pyStrip (cell.content.foldl
    (fun acc i =>
      match i with
      | CellItem.par p => acc ++ process_paragraph p
      | CellItem.other => acc)
    "")

/-- One row line of `process_table`:
`"| " + " | ".join(row_content) + " |\n"`. -/
def renderTableRow (row : TableRow) : String :=
  "| " ++ String.intercalate " | " (row.tableCells.map cellText) ++ " |\n"

/-- The separator line `"| " + " | ".join(["---"] * n) + " |\n"`. -/
def sepRow (n : Nat) : String :=
  "| " ++ String.intercalate " | " (List.replicate n "---") ++ " |\n"

/-- `parse_google_doc.process_table`: `for i, row in enumerate(table_rows)`,
appending the row line and, after the row with `i == 0`, the separator
(sized by that row's cell count). -/
def process_table (t : GTable) : String :=
  t.tableRows.enum.foldl
    (fun acc ir =>
      acc ++ renderTableRow ir.2 ++ (if ir.1 = 0 then sepRow ir.2.tableCells.length else ""))
    ""

/-- A structural element of the document body: `paragraph`, `table`, or
anything else (ignored by the converter). -/
inductive BodyItem where
  | paragraph (p : Paragraph)
  | table (t : GTable)
  | other
deriving DecidableEq

structure GDoc where
  title : Option String
  body : List BodyItem
deriving DecidableEq

/-- `parse_google_doc.extract_document_title`:
`document.get('title', 'Untitled Document')`. -/
def extract_document_title (d : GDoc) : String :=
  d.title.getD "Untitled Document"

/-- The loop body of `parse_google_doc.gdoc_to_markdown`: what one body
item appends to `content`. -/
def renderBodyItem (item : BodyItem) : String :=
  match item with
  | BodyItem.paragraph p =>
    match p.namedStyleType with
    | some style =>
      if style = "HEADING_1" then "## " ++ process_paragraph p ++ "\n\n"
      else if style = "HEADING_2" then "### " ++ process_paragraph p ++ "\n\n"
      else if style = "HEADING_3" then "#### " ++ process_paragraph p ++ "\n\n"
      else process_paragraph p ++ "\n\n"
    | none => process_paragraph p ++ "\n\n"
  | BodyItem.table t => process_table t ++ "\n\n"
  | BodyItem.other => ""

/-- `parse_google_doc.gdoc_to_markdown`: the title and the concatenated
renderings of the body items. -/
def gdoc_to_markdown (d : GDoc) : String × String :=
  (extract_document_title d, d.body.foldl (fun acc item => acc ++ renderBodyItem item) "")

/-- A worksheet of a spreadsheet: its title and `get_all_values()`. -/
structure Worksheet where
  title : String
  values : List (List String)
deriving DecidableEq

structure Spreadsheet where
  title : String
  worksheets : List Worksheet
deriving DecidableEq

/-- Cons-recursive string concatenation (used to state loop-shape
theorems). -/
def strJoin : List String → String
  | [] => ""
  | a :: t => a ++ strJoin t

/-- The markdown table built by `sheet_to_markdown` for a non-empty value
list: header row, separator sized by the header, then the remaining rows
verbatim (no per-cell trimming on this path). -/
def mdTableOfValues (values : List (List String)) : String :=
  match values with
  | [] => ""
  | header_row :: rest =>
    "| " ++ String.intercalate " | " header_row ++ " |\n"
      ++ "| " ++ String.intercalate " | " (List.replicate header_row.length "---") ++ " |\n"
      ++ strJoin (rest.map (fun row => "| " ++ String.intercalate " | " row ++ " |\n"))

/-- The per-worksheet body of `parse_google_sheet.sheet_to_markdown`:
heading, then either the empty-sheet placeholder (the `continue` branch)
or the table followed by a blank-line separator. -/
def renderWorksheet (ws : Worksheet) : String :=
  "## " ++ ws.title ++ "\n\n"
    ++ (match ws.values with
        | [] => "*Пустой лист*\n\n"
        | _ => mdTableOfValues ws.values ++ "\n\n")

/-- `parse_google_sheet.sheet_to_markdown`: fold over the worksheets in
order. -/
def sheet_to_markdown (sheet : Spreadsheet) : String :=
  sheet.worksheets.foldl (fun acc ws => acc ++ renderWorksheet ws) ""

structure CleaningStats where
  original_size : Nat
  cleaned_size : Nat
  removed_chars : Int
  removed_percent : ℚ
deriving DecidableEq

/-- The floor of a rational: `Int.fdiv` (floor division) of the numerator
by the positive denominator.  Used instead of the `FloorRing` floor so
that concrete values evaluate by kernel reduction. -/
def ratFloor (q : ℚ) : Int := Int.fdiv q.num q.den

/-- Python `round(x)`: round half to even, on exact rationals. -/
def roundHalfEven (q : ℚ) : Int :=
  if q - ratFloor q < 1 / 2 then ratFloor q
  else if 1 / 2 < q - ratFloor q then ratFloor q + 1
  else if ratFloor q % 2 = 0 then ratFloor q else ratFloor q + 1

/-- Python `round(x, 2)`.  The Python value is a float; on the percentages
reachable here (a ratio of two text lengths) the exact rational model
agrees. -/
def round2 (q : ℚ) : ℚ := (roundHalfEven (q * 100) : ℚ) / 100

/-- An integer-valued rational rounds to itself. -/
theorem roundHalfEven_intCast (n : Int) : roundHalfEven ((n : ℚ)) = n := by
  unfold roundHalfEven ratFloor
  simp [Rat.num_intCast, Rat.den_intCast, Int.fdiv_one]

theorem round2_eq (q : ℚ) (n : Int) (h : q * 100 = (n : ℚ)) :
    round2 q = (n : ℚ) / 100 := by
  unfold round2
  rw [h, roundHalfEven_intCast]

/-- `utils.get_cleaning_stats`: sizes are `len()` of the two texts
(code-point counts), `removed_percent` is `(removed / original) * 100`
guarded against `original_len == 0`, rounded to 2 decimal places. -/
def get_cleaning_stats (original_text cleaned_text : String) : CleaningStats :=
  { original_size := original_text.length
    cleaned_size := cleaned_text.length
    removed_chars := (original_text.length : Int) - (cleaned_text.length : Int)
    removed_percent := round2
      (if 0 < original_text.length then
        (((original_text.length : Int) - (cleaned_text.length : Int) : ℚ)
          / (original_text.length : ℚ)) * 100
      else 0) }

/-- `utils.format_as_markdown`: prepend the title heading, then clean. -/
def format_as_markdown (title content : String) (cleaning_level : String) :
    String × String :=
  ("# " ++ title ++ "\n\n" ++ content,
   String.mk (apply_cleaning ("# " ++ title ++ "\n\n" ++ content).data cleaning_level))

/-- Matcher for `\[.*?\]` in `utils.slugify_filename`: lazy and without
DOTALL, so a `[` up to the nearest following `]` on the same line. -/
def mBrk : List Char → Option (List Char × Nat)
  | '[' :: rest =>
    let k := (rest.takeWhile (fun c => c ≠ ']' && c ≠ '\n')).length
    match rest.drop k with
    | ']' :: _ => some ([], k + 2)
    | _ => none
  | _ => none

/-- The in-repository part of `utils.slugify_filename`: strip `[...]`
version markers, then `.strip()`.  The final `slugify(...)` call is the
external python-slugify library and enters the model as a parameter of
`DocEnv`. -/
def slugify_filename_stem (title : String) : String :=
  pyStrip (String.mk (reSub mBrk title.data))

/-- `config.FILENAME_TEMPLATE = "leadgen_{}.md"`. -/
def FILENAME_TEMPLATE (stem : String) : String := "leadgen_" ++ stem ++ ".md"

/-- `config.DOCS_DIR`, relative to `BASE_DIR` (an absolute filesystem
prefix, irrelevant to the claims). -/
def DOCS_DIR : String := "data/docs"

/-- The effectful context of `parse_google_doc`: authentication
(`authenticate_docs`, `None` on failure), the per-document fetch
(`get_document`, `None` on `HttpError`) and the external python-slugify
call are outside the repository and enter the model as parameters; the
file writes of `save_markdown` are dropped and only the returned path is
modelled. -/
structure DocEnv where
  authOk : Bool
  fetch : String → Option GDoc
  slugify : String → String

/-- `parse_google_doc.parse_doc`: `(None, None)` (here `none`) when
authentication or the fetch fails; otherwise convert, clean, compute
stats, and return the clean-file path with the stats.  Both
`save_original` branches return the clean path under `DOCS_DIR`. -/
def parse_doc (env : DocEnv) (document_id : String) (cleaning_level : String)
    (save_original : Bool) : Option (String × CleaningStats) :=
  if env.authOk then
    match env.fetch document_id with
    | none => none
    | some document =>
      let tc := gdoc_to_markdown document
      let oc := format_as_markdown tc.1 tc.2 cleaning_level
      let _ := save_original
      some (DOCS_DIR ++ "/" ++ FILENAME_TEMPLATE (env.slugify (slugify_filename_stem tc.1)),
            get_cleaning_stats oc.1 oc.2)
  else none

structure DocResult where
  document_id : String
  path : String
  stats : CleaningStats
deriving DecidableEq

/-- `parse_google_doc.main`: process the identifiers in order, appending a
result for each succeeded `parse_doc` and skipping (only logging) the
failed ones. -/
def main (env : DocEnv) (document_ids : List String) (cleaning_level : String)
    (save_original : Bool) : List DocResult :=
  document_ids.foldl
    (fun results doc_id =>
      match parse_doc env doc_id cleaning_level save_original with
      | some ps => results ++ [⟨doc_id, ps.1, ps.2⟩]
      | none => results)
    []

/-! ### General lemmas about the scanners -/

theorem reSubGo_nil (m : List Char → Option (List Char × Nat)) (fuel : Nat) :
    reSubGo m fuel [] = [] := by
  cases fuel <;> rfl

/-- A `re.sub` pass whose pattern matches at no position of the text
leaves the text unchanged. -/
theorem reSubGo_eq_self (m : List Char → Option (List Char × Nat)) :
    ∀ (fuel : Nat) (s : List Char), (∀ i, m (s.drop i) = none) → reSubGo m fuel s = s := by
  intro fuel
  induction fuel with
  | zero => intro s _; rfl
  | succ n ih =>
    intro s h
    cases s with
    | nil => rfl
    | cons c cs =>
      have h0 : m (c :: cs) = none := by simpa using h 0
      have h1 : ∀ i, m (cs.drop i) = none := fun i => by simpa using h (i + 1)
      simp [reSubGo, h0, ih cs h1]

theorem reSub_eq_self (m : List Char → Option (List Char × Nat)) (s : List Char)
    (h : ∀ i, m (s.drop i) = none) : reSub m s = s :=
  reSubGo_eq_self m s.length s h

theorem takeWhile_append_of_forall {p : Char → Bool} :
    ∀ (l l2 : List Char), (∀ c ∈ l, p c = true) →
      (l ++ l2).takeWhile p = l ++ l2.takeWhile p
  | [], _, _ => rfl
  | a :: t, l2, h => by
    rw [List.cons_append, List.takeWhile_cons, if_pos (h a (List.mem_cons_self a t)),
      takeWhile_append_of_forall t l2 (fun c hc => h c (List.mem_cons_of_mem a hc)),
      List.cons_append]

/-- The head of any suffix of `l` avoids a character that no element of
`l` equals. -/
theorem head?_drop_ne {l : List Char} {a : Char} (h : ∀ c ∈ l, c ≠ a) (i : Nat) :
    (l.drop i).head? ≠ some a := by
  intro hcon
  exact h a (List.drop_subset i l (List.mem_of_mem_head? hcon)) rfl

theorem mSub2_eq_none {s : List Char} (h : s.head? ≠ some '_') : mSub2 s = none := by
  unfold mSub2
  split
  · rename_i rest
    simp at h
  · rfl

theorem mSub3_eq_none {s : List Char} (h : s.head? ≠ some '[') : mSub3 s = none := by
  unfold mSub3
  split
  · rename_i rest
    simp at h
  · rfl

/-- The first substitution of `standardize_placeholders` on
`__name__` with a non-empty underscore-free `name`. -/
theorem sub1_wraps (name : List Char) (h1 : name ≠ []) (h2 : ∀ c ∈ name, c ≠ '_') :
    reSub mSub1 ('_' :: '_' :: (name ++ ['_', '_'])) = tripleBrace name := by
  have htw : (name ++ ['_', '_']).takeWhile (fun c => decide (c ≠ '_')) = name := by
    rw [takeWhile_append_of_forall name ['_', '_'] (by intro c hc; simp [h2 c hc])]
    simp
  have hne : name.isEmpty = false := by simpa using h1
  have hdrop : (name ++ ['_', '_']).drop name.length = ['_', '_'] :=
    List.drop_left name ['_', '_']
  have hm : mSub1 ('_' :: '_' :: (name ++ ['_', '_']))
      = some (tripleBrace name, name.length + 4) := by
    simp only [mSub1, htw, hne, hdrop]
    rfl
  have hlen : ('_' :: '_' :: (name ++ ['_', '_'])).length = name.length + 4 := by
    simp
  have hfull : List.drop (name.length + 4) ('_' :: '_' :: (name ++ ['_', '_'])) = [] :=
    List.drop_eq_nil_of_le (le_of_eq hlen)
  unfold reSub
  rw [hlen]
  show reSubGo mSub1 (name.length + 3 + 1) ('_' :: '_' :: (name ++ ['_', '_']))
    = tripleBrace name
  rw [reSubGo, hm]
  simp [hfull, reSubGo_nil]

/-! ### Claim C1 (placeholder standardization) -/

/-- Claim C1, counterexample: the spec asserts that `apply_cleaning` (at
every level) normalizes `"__client_name__"` to `"{{{client_name}}}"`, but
the greedy class `[^_]+` of the first substitution cannot cross the inner
underscore of `client_name`, no other substitution applies, and the input
comes back unchanged. -/
theorem claim_C1_counterexample :
    apply_cleaning "__client_name__".data "medium" = "__client_name__".data
    ∧ apply_cleaning "__client_name__".data "medium"
        ≠ "\x7b\x7b\x7bclient_name\x7d\x7d\x7d".data := by
  constructor <;> decide

/-- Claim C1 as amended: the three substitutions of the placeholder pass
run once each in fixed order; `__name__` normalizes to `{{{name}}}` when
`name` is non-empty and contains no underscore (and no bracket that could
feed the third pattern); `[ВСТАВКА: client_name]` normalizes to
`{{{client_name}}}`; but a double-underscore placeholder whose name
contains an underscore (`__client_name__`) is not rewritten, and
`___name___` with an underscore-free name is rewritten off-centre to
`_{{{name}}}_`. -/
theorem claim_C1 (name : List Char) (h1 : name ≠ [])
    (h2 : ∀ c ∈ name, c ≠ '_') (h3 : ∀ c ∈ name, c ≠ '[') :
    standardize_placeholders ('_' :: '_' :: (name ++ ['_', '_'])) = tripleBrace name
    ∧ apply_cleaning "[ВСТАВКА: client_name]".data "medium"
        = "\x7b\x7b\x7bclient_name\x7d\x7d\x7d".data
    ∧ apply_cleaning "___name___".data "medium" = "_\x7b\x7b\x7bname\x7d\x7d\x7d_".data := by
  refine ⟨?_, by decide, by decide⟩
  have hb1 : ∀ c ∈ tripleBrace name, c ≠ '_' := by
    intro c hc
    simp [tripleBrace, lbrace, rbrace] at hc
    rcases hc with h | h | h
    · subst h; decide
    · exact h2 c h
    · subst h; decide
  have hb2 : ∀ c ∈ tripleBrace name, c ≠ '[' := by
    intro c hc
    simp [tripleBrace, lbrace, rbrace] at hc
    rcases hc with h | h | h
    · subst h; decide
    · exact h3 c h
    · subst h; decide
  unfold standardize_placeholders
  rw [sub1_wraps name h1 h2]
  rw [reSub_eq_self mSub2 _ (fun i => mSub2_eq_none (head?_drop_ne hb1 i))]
  rw [reSub_eq_self mSub3 _ (fun i => mSub3_eq_none (head?_drop_ne hb2 i))]

theorem claim_C1_witness :
    ("client".data ≠ [] ∧ (∀ c ∈ "client".data, c ≠ '_') ∧ (∀ c ∈ "client".data, c ≠ '['))
    ∧ standardize_placeholders ('_' :: '_' :: ("client".data ++ ['_', '_']))
        = tripleBrace "client".data :=
  ⟨⟨by decide, by decide, by decide⟩,
   (claim_C1 "client".data (by decide) (by decide) (by decide)).1⟩

/-! ### Claims C2 and C10 (empty-table removal) -/

/-- A single-separator-cell table block that the table pattern matches:
8 lines and 20 pipes, so the scan of `\|[^|]+\|` counts 10 and the scan of
`\|\s*\|` counts the 7 inter-line `|\n|` pairs: exactly 70 percent. -/
def B70 : List Char := "\n|x|y|\n|-|\n|a|\n|b|\n|c|\n|d|\n|e|\n|p|q|r|s|\n".data

/-- A matched table block with 72 lines and 200 pipes: the counts come to
100 total and 71 empty, exactly 71 percent. -/
def B71 : List Char :=
  ("\n|a|b|\n|-|\n" ++ strJoin (List.replicate 55 "|a|b|\n")
    ++ strJoin (List.replicate 15 "|c|\n")).data

/-- A standard two-column table whose four cells are all empty. -/
def multiColumnTable : List Char := "\n| | |\n| --- | --- |\n| | |\n".data

/-- Claim C2, counterexample: the spec asserts that every Markdown table
block whose empty-cell fraction exceeds 70 percent is deleted, but the
separator part `\|[\s-]+\|` of the table pattern only matches a separator
row with exactly two pipes, so this fully empty two-column table (whose
cells are all whitespace-only, 100 percent — even the code's own counters
say 4 of 4) is never matched and survives `clean_empty_tables` unchanged. -/
theorem claim_C2_counterexample :
    clean_empty_tables multiColumnTable = multiColumnTable
    ∧ total_cells multiColumnTable = 4
    ∧ empty_cells multiColumnTable = 4
    ∧ is_empty_table multiColumnTable = true :=
  ⟨rfl, rfl, rfl, rfl⟩

set_option maxRecDepth 100000 in
/-- Claim C2 as amended: `clean_empty_tables` deletes a block it matches
exactly when the code's cell counts put the empty fraction strictly above
the 70-percent threshold — a matched block at exactly 70 percent is
retained and one at exactly 71 percent is removed — but the table pattern
only matches blocks whose separator row consists of exactly two pipes,
and the counts are those of the two non-overlapping `findall` scans (over
the whole block text, newlines included), not a per-cell count. -/
theorem claim_C2 :
    (∀ s : List Char, is_empty_table s = true ↔
      (total_cells s = 0 ∨ 100 * empty_cells s > EMPTY_TABLE_THRESHOLD * total_cells s))
    ∧ (total_cells B70 = 10 ∧ empty_cells B70 = 7 ∧ is_empty_table B70 = false
        ∧ clean_empty_tables B70 = B70)
    ∧ (total_cells B71 = 100 ∧ empty_cells B71 = 71 ∧ is_empty_table B71 = true
        ∧ clean_empty_tables B71 = []) := by
  refine ⟨?_, ⟨rfl, rfl, rfl, rfl⟩, ⟨rfl, rfl, rfl, rfl⟩⟩
  intro s
  unfold is_empty_table
  by_cases h : total_cells s = 0
  · simp [h]
  · simp [h, decide_eq_true_iff]

/-- Claim C10: whenever the count of `\|[^|]+\|` matches in a block is
zero, `is_empty_table` classifies the block as empty by the explicit
guard, before the percentage (a division by that count) is computed. -/
theorem claim_C10 (s : List Char) (h : total_cells s = 0) : is_empty_table s = true := by
  unfold is_empty_table
  simp [h]

theorem claim_C10_witness :
    total_cells "||".data = 0 ∧ is_empty_table "||".data = true :=
  ⟨rfl, claim_C10 "||".data rfl⟩

/-! ### Claim C3 (unknown cleaning level falls back to medium) -/

/-- Claim C3: a `cleaning_level` other than low/medium/high is silently
resolved to the medium pipeline by the `dict.get` default, so
`apply_cleaning` returns exactly the medium result. -/
theorem claim_C3 (text : List Char) (level : String)
    (h1 : level ≠ "low") (h2 : level ≠ "medium") (h3 : level ≠ "high") :
    apply_cleaning text level = apply_cleaning text "medium" := by
  unfold apply_cleaning
  have hlv : CLEANING_LEVELS level = CLEANING_LEVELS "medium" := by
    simp [CLEANING_LEVELS, h1, h2, h3]
  rw [hlv]

theorem claim_C3_witness :
    ("whatever" ≠ "low" ∧ "whatever" ≠ "medium" ∧ "whatever" ≠ "high")
    ∧ apply_cleaning "Автор: X\nТело".data "whatever"
        = apply_cleaning "Автор: X\nТело".data "medium" :=
  ⟨⟨by decide, by decide, by decide⟩,
   claim_C3 "Автор: X\nТело".data "whatever" (by decide) (by decide) (by decide)⟩

/-! ### Claim C4 (heading-level mapping) -/

/-- Claim C4: the converter maps heading style levels 1, 2, 3 to the
Markdown prefixes `##`, `###`, `####` (one more `#` than the level) over
the concatenated run text, with a blank-line separator, and a paragraph
without a named style to the bare text with the separator. -/
theorem claim_C4 (p : Paragraph) :
    (p.namedStyleType = some "HEADING_1" →
      renderBodyItem (BodyItem.paragraph p) = "## " ++ process_paragraph p ++ "\n\n")
    ∧ (p.namedStyleType = some "HEADING_2" →
      renderBodyItem (BodyItem.paragraph p) = "### " ++ process_paragraph p ++ "\n\n")
    ∧ (p.namedStyleType = some "HEADING_3" →
      renderBodyItem (BodyItem.paragraph p) = "#### " ++ process_paragraph p ++ "\n\n")
    ∧ (p.namedStyleType = none →
      renderBodyItem (BodyItem.paragraph p) = process_paragraph p ++ "\n\n") := by
  refine ⟨fun h => ?_, fun h => ?_, fun h => ?_, fun h => ?_⟩ <;>
    simp [renderBodyItem, h]

theorem claim_C4_witness :
    renderBodyItem (BodyItem.paragraph ⟨some "HEADING_1", [ParagraphElement.textRun "Intro"]⟩)
      = "## Intro\n\n"
    ∧ renderBodyItem (BodyItem.paragraph ⟨some "HEADING_2", [ParagraphElement.textRun "Intro"]⟩)
      = "### Intro\n\n"
    ∧ renderBodyItem (BodyItem.paragraph ⟨some "HEADING_3", [ParagraphElement.textRun "Intro"]⟩)
      = "#### Intro\n\n"
    ∧ renderBodyItem (BodyItem.paragraph ⟨none, [ParagraphElement.textRun "Intro"]⟩)
      = "Intro\n\n" := by
  refine ⟨?_, ?_, ?_, ?_⟩
  · exact ((claim_C4 ⟨some "HEADING_1", [ParagraphElement.textRun "Intro"]⟩).1 rfl).trans
      (by decide)
  · exact ((claim_C4 ⟨some "HEADING_2", [ParagraphElement.textRun "Intro"]⟩).2.1 rfl).trans
      (by decide)
  · exact ((claim_C4 ⟨some "HEADING_3", [ParagraphElement.textRun "Intro"]⟩).2.2.1 rfl).trans
      (by decide)
  · exact ((claim_C4 ⟨none, [ParagraphElement.textRun "Intro"]⟩).2.2.2 rfl).trans
      (by decide)

/-! ### Claim C5 (document-table rendering) -/

theorem foldl_append_strJoin {α : Type} (f : α → String) :
    ∀ (l : List α) (acc : String),
      l.foldl (fun a x => a ++ f x) acc = acc ++ strJoin (l.map f) := by
  intro l
  induction l with
  | nil => intro acc; simp [strJoin, String.append_empty]
  | cons a t ih =>
    intro acc
    simp only [List.foldl, List.map, strJoin]
    rw [ih, String.append_assoc]

/-- The `process_table` loop over `enumerate` entries with index at least
one never emits the separator again. -/
theorem processTable_enumFrom (rows : List TableRow) :
    ∀ (n : Nat) (acc : String), n ≠ 0 →
      (List.enumFrom n rows).foldl
        (fun acc ir => acc ++ renderTableRow ir.2
          ++ (if ir.1 = 0 then sepRow ir.2.tableCells.length else "")) acc
      = acc ++ strJoin (rows.map renderTableRow) := by
  induction rows with
  | nil =>
    intro n acc _
    simp [List.enumFrom, strJoin, String.append_empty]
  | cons r rs ih =>
    intro n acc hn
    simp only [List.enumFrom, List.foldl, List.map, strJoin, if_neg hn,
      String.append_empty]
    rw [ih (n + 1) _ (Nat.succ_ne_zero n), String.append_assoc]

/-- A one-cell cell whose single paragraph holds one text run. -/
def cellOf (s : String) : TableCell :=
  ⟨[CellItem.par ⟨none, [ParagraphElement.textRun s]⟩]⟩

def exampleTable : GTable :=
  ⟨[⟨[cellOf "A", cellOf "B"]⟩, ⟨[cellOf "1", cellOf "2"]⟩]⟩

/-- The example table with whitespace-padded cell texts: `strip()` makes
it render identically. -/
def examplePaddedTable : GTable :=
  ⟨[⟨[cellOf " A ", cellOf "B "]⟩, ⟨[cellOf "1", cellOf " 2 "]⟩]⟩

/-- Claim C5: the converter renders every row as a pipe-delimited line of
stripped cell texts, emits the `---` separator (one per column of the
first row) exactly once, immediately after the first row, and the example
table renders to the expected string — also when its cells carry leading
or trailing whitespace, which the per-cell `strip()` removes. -/
theorem claim_C5 :
    (∀ (r : TableRow) (rs : List TableRow),
      process_table ⟨r :: rs⟩ =
        renderTableRow r ++ sepRow r.tableCells.length ++ strJoin (rs.map renderTableRow))
    ∧ process_table exampleTable = "| A | B |\n| --- | --- |\n| 1 | 2 |\n"
    ∧ process_table examplePaddedTable = "| A | B |\n| --- | --- |\n| 1 | 2 |\n" := by
  refine ⟨?_, rfl, rfl⟩
  intro r rs
  show ((0, r) :: List.enumFrom 1 rs).foldl
      (fun acc ir => acc ++ renderTableRow ir.2
        ++ (if ir.1 = 0 then sepRow ir.2.tableCells.length else "")) ""
    = _
  simp only [List.foldl, if_pos rfl]
  rw [processTable_enumFrom rs 1 _ one_ne_zero]
  simp [String.empty_append, String.append_assoc]

/-! ### Claim C6 (sheet-to-Markdown rendering) -/

def exampleSheet : Spreadsheet :=
  ⟨"Книга", [⟨"Лист1", [[" A ", "B"], ["1", " 2"]]⟩, ⟨"Лист2", []⟩]⟩

/-- Claim C6: one `## <sheet name>` heading per sheet in sheet order; a
sheet with no rows yields the fixed placeholder line instead of a table;
otherwise the first row becomes the header, then the separator sized by
the header, then the remaining rows verbatim — no per-cell trimming, as
the padded cells of the concrete example show. -/
theorem claim_C6 :
    (∀ (title : String) (wss : List Worksheet),
      sheet_to_markdown ⟨title, wss⟩ = strJoin (wss.map renderWorksheet))
    ∧ (∀ t : String,
        renderWorksheet ⟨t, []⟩ = "## " ++ t ++ "\n\n" ++ "*Пустой лист*\n\n")
    ∧ (∀ (t : String) (h : List String) (rest : List (List String)),
        renderWorksheet ⟨t, h :: rest⟩ =
          "## " ++ t ++ "\n\n"
            ++ ("| " ++ String.intercalate " | " h ++ " |\n"
                ++ "| " ++ String.intercalate " | " (List.replicate h.length "---") ++ " |\n"
                ++ strJoin (rest.map (fun row => "| " ++ String.intercalate " | " row ++ " |\n"))
                ++ "\n\n"))
    ∧ sheet_to_markdown exampleSheet
        = "## Лист1\n\n|  A  | B |\n| --- | --- |\n| 1 |  2 |\n\n\n## Лист2\n\n*Пустой лист*\n\n" := by
  refine ⟨?_, fun t => rfl, fun t h rest => ?_, rfl⟩
  · intro title wss
    unfold sheet_to_markdown
    rw [foldl_append_strJoin renderWorksheet wss ""]
    exact String.empty_append _
  · simp [renderWorksheet, mdTableOfValues, String.append_assoc]

/-! ### Claim C7 (cleaning statistics) -/

/-- Claim C7: the stats report the two code-point lengths, their
difference, and the removed percentage rounded to two decimals, with the
zero-length guard; lengths 100 and 40 give 60 removed characters and
exactly 60 percent, and an empty original gives 0 percent. -/
theorem claim_C7 :
    (∀ o c : String,
      (get_cleaning_stats o c).original_size = o.length
      ∧ (get_cleaning_stats o c).cleaned_size = c.length
      ∧ (get_cleaning_stats o c).removed_chars = (o.length : Int) - (c.length : Int))
    ∧ (∀ o c : String, o.length = 100 → c.length = 40 →
        (get_cleaning_stats o c).removed_chars = 60
        ∧ (get_cleaning_stats o c).removed_percent = 60)
    ∧ (∀ c : String, (get_cleaning_stats "" c).removed_percent = 0) := by
  refine ⟨fun o c => ⟨rfl, rfl, rfl⟩, fun o c ho hc => ?_, fun c => ?_⟩
  · constructor
    · simp only [get_cleaning_stats, ho, hc]
      decide
    · simp only [get_cleaning_stats, ho, hc]
      rw [if_pos (by norm_num)]
      rw [round2_eq _ 6000 (by push_cast; norm_num)]
      norm_num
  · have h0 : ("" : String).length = 0 := rfl
    simp only [get_cleaning_stats, h0]
    rw [if_neg (lt_irrefl 0)]
    rw [round2_eq 0 0 (by norm_num)]
    norm_num

theorem claim_C7_witness :
    (String.mk (List.replicate 100 'a')).length = 100
    ∧ (String.mk (List.replicate 40 'b')).length = 40
    ∧ (get_cleaning_stats (String.mk (List.replicate 100 'a'))
        (String.mk (List.replicate 40 'b'))).removed_chars = 60
    ∧ (get_cleaning_stats (String.mk (List.replicate 100 'a'))
        (String.mk (List.replicate 40 'b'))).removed_percent = 60 := by
  have h := claim_C7.2.1 (String.mk (List.replicate 100 'a'))
    (String.mk (List.replicate 40 'b')) (by decide) (by decide)
  exact ⟨by decide, by decide, h.1, h.2⟩

/-! ### Claim C8 (batch partial-failure semantics) -/

theorem main_foldl (env : DocEnv) (lvl : String) (so : Bool) :
    ∀ (ids : List String) (acc : List DocResult),
      ids.foldl
        (fun results doc_id =>
          match parse_doc env doc_id lvl so with
          | some ps => results ++ [⟨doc_id, ps.1, ps.2⟩]
          | none => results) acc
      = acc ++ ids.filterMap
          (fun id => (parse_doc env id lvl so).map (fun ps => ⟨id, ps.1, ps.2⟩)) := by
  intro ids
  induction ids with
  | nil => intro acc; simp
  | cons a t ih =>
    intro acc
    cases hp : parse_doc env a lvl so <;>
      simp [List.foldl, hp, ih, List.filterMap_cons]

theorem parse_doc_none_of_fetch_none (env : DocEnv) (d lvl : String) (so : Bool)
    (h : env.fetch d = none) : parse_doc env d lvl so = none := by
  unfold parse_doc
  cases ha : env.authOk <;> simp [ha, h]

/-- Claim C8: the batch entry point processes the identifiers in order,
its result list is exactly the succeeded items in that order, and with
three identifiers whose second fetch fails the result holds exactly the
first and third entries. -/
theorem claim_C8 (env : DocEnv) (lvl : String) (so : Bool) :
    (∀ ids : List String,
      main env ids lvl so =
        ids.filterMap
          (fun id => (parse_doc env id lvl so).map (fun ps => ⟨id, ps.1, ps.2⟩)))
    ∧ (∀ (d1 d2 d3 : String) (r1 r3 : String × CleaningStats),
        env.fetch d2 = none →
        parse_doc env d1 lvl so = some r1 →
        parse_doc env d3 lvl so = some r3 →
        main env [d1, d2, d3] lvl so = [⟨d1, r1.1, r1.2⟩, ⟨d3, r3.1, r3.2⟩]) := by
  have hgen : ∀ ids : List String,
      main env ids lvl so =
        ids.filterMap
          (fun id => (parse_doc env id lvl so).map (fun ps => ⟨id, ps.1, ps.2⟩)) := by
    intro ids
    unfold main
    rw [main_foldl env lvl so ids []]
    simp
  refine ⟨hgen, fun d1 d2 d3 r1 r3 h2 hp1 hp3 => ?_⟩
  rw [hgen [d1, d2, d3]]
  simp [List.filterMap_cons, hp1, hp3, parse_doc_none_of_fetch_none env d2 lvl so h2]

def docA : GDoc :=
  ⟨some "Doc A", [BodyItem.paragraph ⟨none, [ParagraphElement.textRun "hello"]⟩]⟩

/-- A concrete environment whose fetch succeeds for `"a"` and `"c"` and
fails for everything else; the slugify library is the identity here. -/
def envW : DocEnv :=
  ⟨true, fun id => if id = "a" ∨ id = "c" then some docA else none, fun s => s⟩

/-- The stats of the witness document: 16 characters before cleaning (the
formatting pass strips the trailing blank line), 14 after. -/
theorem stats_docA :
    get_cleaning_stats "# Doc A\n\nhello\n\n" "# Doc A\n\nhello" = ⟨16, 14, 2, 25 / 2⟩ := by
  have h1 : ("# Doc A\n\nhello\n\n" : String).length = 16 := rfl
  have h2 : ("# Doc A\n\nhello" : String).length = 14 := rfl
  simp only [get_cleaning_stats, h1, h2, CleaningStats.mk.injEq, true_and]
  constructor
  · decide
  · rw [if_pos (by norm_num)]
    rw [round2_eq _ 1250 (by push_cast; norm_num)]
    push_cast
    norm_num

set_option maxHeartbeats 4000000 in
theorem parse_doc_envW_a :
    parse_doc envW "a" "medium" true
      = some ("data/docs/leadgen_Doc A.md", ⟨16, 14, 2, 25 / 2⟩) := by
  have h : parse_doc envW "a" "medium" true
      = some ("data/docs/leadgen_Doc A.md",
          get_cleaning_stats "# Doc A\n\nhello\n\n" "# Doc A\n\nhello") := rfl
  rw [h, stats_docA]

set_option maxHeartbeats 4000000 in
theorem parse_doc_envW_c :
    parse_doc envW "c" "medium" true
      = some ("data/docs/leadgen_Doc A.md", ⟨16, 14, 2, 25 / 2⟩) := by
  have h : parse_doc envW "c" "medium" true
      = some ("data/docs/leadgen_Doc A.md",
          get_cleaning_stats "# Doc A\n\nhello\n\n" "# Doc A\n\nhello") := rfl
  rw [h, stats_docA]

theorem claim_C8_witness :
    envW.fetch "b" = none
    ∧ main envW ["a", "b", "c"] "medium" true =
        [⟨"a", "data/docs/leadgen_Doc A.md", ⟨16, 14, 2, 25 / 2⟩⟩,
         ⟨"c", "data/docs/leadgen_Doc A.md", ⟨16, 14, 2, 25 / 2⟩⟩] :=
  ⟨rfl,
   (claim_C8 envW "medium" true).2 "a" "b" "c"
     ("data/docs/leadgen_Doc A.md", ⟨16, 14, 2, 25 / 2⟩)
     ("data/docs/leadgen_Doc A.md", ⟨16, 14, 2, 25 / 2⟩)
     rfl parse_doc_envW_a parse_doc_envW_c⟩

/-! ### Claim C9 (idempotence of the cleaning pipeline) -/

set_option maxHeartbeats 2000000 in
/-- Claim C9, counterexample: `"a \xa0b"` cleaned at level low gives
`"a  b"` — fixed by every cleaning rule of the level and by the
placeholder pass — yet a second `apply_cleaning` still shrinks it,
because the `\xa0`-to-space replacement runs after the space-collapsing
substitution and manufactures a fresh double space: the
formatting-artifact pass is not safe to re-apply on its own output, and
`apply_cleaning` is not idempotent here. -/
theorem claim_C9_counterexample :
    run_cleaning_step "metadata" (apply_cleaning "a \xa0b".data "low")
        = apply_cleaning "a \xa0b".data "low"
    ∧ run_cleaning_step "terms" (apply_cleaning "a \xa0b".data "low")
        = apply_cleaning "a \xa0b".data "low"
    ∧ standardize_placeholders (apply_cleaning "a \xa0b".data "low")
        = apply_cleaning "a \xa0b".data "low"
    ∧ clean_formatting_artifacts (clean_formatting_artifacts "a \xa0b".data)
        ≠ clean_formatting_artifacts "a \xa0b".data
    ∧ apply_cleaning (apply_cleaning "a \xa0b".data "low") "low"
        ≠ apply_cleaning "a \xa0b".data "low" := by
  refine ⟨?_, ?_, ?_, ?_, ?_⟩ <;> decide

set_option maxHeartbeats 2000000 in
/-- Claim C9 as amended: `apply_cleaning` at level `L` is idempotent on a
text whose once-cleaned result is fixed by each cleaning rule of the
level's own list, by the placeholder pass, and — this condition cannot be
dropped, as the counterexample shows — by the formatting-artifact pass as
well.  Rules outside the level's list are not required to fix the text:
they never run at that level. -/
theorem claim_C9 (text : List Char) (L : String)
    (hrules : ∀ name ∈ CLEANING_LEVELS L,
      run_cleaning_step name (apply_cleaning text L) = apply_cleaning text L)
    (hph : standardize_placeholders (apply_cleaning text L) = apply_cleaning text L)
    (hfmt : clean_formatting_artifacts (apply_cleaning text L) = apply_cleaning text L) :
    apply_cleaning (apply_cleaning text L) L = apply_cleaning text L := by
  have hfold : ∀ names : List String,
      (∀ name ∈ names,
        run_cleaning_step name (apply_cleaning text L) = apply_cleaning text L) →
      names.foldl (fun t name => run_cleaning_step name t) (apply_cleaning text L)
        = apply_cleaning text L := by
    intro names
    induction names with
    | nil => intro _; rfl
    | cons a t ih =>
      intro h
      rw [List.foldl_cons, h a (List.mem_cons_self a t)]
      exact ih (fun n hn => h n (List.mem_cons_of_mem a hn))
  calc apply_cleaning (apply_cleaning text L) L
      = clean_formatting_artifacts (standardize_placeholders
          ((CLEANING_LEVELS L).foldl (fun t name => run_cleaning_step name t)
            (apply_cleaning text L))) := rfl
    _ = apply_cleaning text L := by rw [hfold _ hrules, hph, hfmt]

set_option maxHeartbeats 2000000 in
/-- The witness text is fixed by both rules of level low (and by the two
always-on passes) but not by `clean_links`, which the level never runs:
the hypotheses of the idempotence theorem hold and are strictly weaker
than fixity under all seven rules. -/
theorem claim_C9_witness :
    run_cleaning_step "metadata" (apply_cleaning "see http://x.com a".data "low")
        = apply_cleaning "see http://x.com a".data "low"
    ∧ run_cleaning_step "terms" (apply_cleaning "see http://x.com a".data "low")
        = apply_cleaning "see http://x.com a".data "low"
    ∧ clean_links (apply_cleaning "see http://x.com a".data "low")
        ≠ apply_cleaning "see http://x.com a".data "low"
    ∧ apply_cleaning (apply_cleaning "see http://x.com a".data "low") "low"
        = apply_cleaning "see http://x.com a".data "low" :=
  ⟨by decide, by decide, by decide,
   claim_C9 "see http://x.com a".data "low" (by decide) (by decide) (by decide)⟩

end KP
